import Mathlib

/-!
Shallow embedding of the Flash-Deal cart/reservation system:
MongoDB product and order documents, the Redis reservation store
(per-(user,sku) reservation keys and per-sku aggregate reserved
counters, each with an expiry clock), and the service layer
(redisService, productService, cartService, checkoutService).
Time is modelled as a Nat clock in seconds; every Redis key carries
its absolute expiry instant and a key is readable only while the
clock is strictly below that instant.
-/

namespace FlashDeal

/-- A product document (MongoDB): sku, name, price, totalStock, isActive. -/
structure Product where
  sku : String
  name : String
  price : Nat
  totalStock : Nat
  isActive : Bool
  deriving DecidableEq, Repr

/-- One Redis `reservation:userId:sku` key: the stored quantity plus the
absolute instant at which the key expires. -/
structure ResvEntry where
  userId : String
  sku : String
  qty : Nat
  expiresAt : Nat
  deriving DecidableEq, Repr

/-- One Redis `reserved_stock:sku` key: the per-sku aggregate reserved
counter.  `expiresAt = none` means the key has no TTL (it was created by a
bare INCRBY/DECRBY and never given an expiry). -/
structure AggEntry where
  sku : String
  value : Int
  expiresAt : Option Nat
  deriving DecidableEq, Repr

/-- The whole Redis keyspace used by the system. -/
structure Store where
  resv : List ResvEntry
  agg : List AggEntry
  deriving DecidableEq, Repr

/-- A reservation key still exists at instant `now`. -/
def ResvEntry.live (e : ResvEntry) (now : Nat) : Bool :=
  now < e.expiresAt

/-- An aggregate key still exists at instant `now`. -/
def AggEntry.live (e : AggEntry) (now : Nat) : Bool :=
  match e.expiresAt with
  | none => true
  | some t => now < t

/-- Locate the (unique) physical entry for `reservation:u:s`, expired or not. -/
def resvFind (st : Store) (u s : String) : Option ResvEntry :=
  st.resv.find? (fun e => e.userId == u && e.sku == s)

/-- Redis GET on `reservation:u:s`: the value if the key is live, else absent. -/
def resvGet (st : Store) (now : Nat) (u s : String) : Option Nat :=
  match resvFind st u s with
  | some e => if e.live now then some e.qty else none
  | none => none

/-- Redis SETEX on `reservation:u:s` at instant `now` with ttl seconds. -/
def resvSetEx (st : Store) (now ttl : Nat) (u s : String) (q : Nat) : Store :=
  { st with resv :=
      ⟨u, s, q, now + ttl⟩ :: st.resv.filter (fun e => !(e.userId == u && e.sku == s)) }

/-- Redis DEL on `reservation:u:s`. -/
def resvDel (st : Store) (u s : String) : Store :=
  { st with resv := st.resv.filter (fun e => !(e.userId == u && e.sku == s)) }

/-- Redis TTL on `reservation:u:s`: seconds remaining if live, -2 otherwise. -/
def resvTtl (st : Store) (now : Nat) (u s : String) : Int :=
  match resvFind st u s with
  | some e => if e.live now then (e.expiresAt : Int) - (now : Int) else -2
  | none => -2

/-- Locate the physical entry for `reserved_stock:s`, expired or not. -/
def aggFind (st : Store) (s : String) : Option AggEntry :=
  st.agg.find? (fun e => e.sku == s)

/-- Redis GET on `reserved_stock:s`. -/
def aggGet (st : Store) (now : Nat) (s : String) : Option Int :=
  match aggFind st s with
  | some e => if e.live now then some e.value else none
  | none => none

/-- Replace (or create) the physical aggregate entry for `e.sku`. -/
def aggSet (st : Store) (e : AggEntry) : Store :=
  { st with agg := e :: st.agg.filter (fun x => !(x.sku == e.sku)) }

/-- Redis INCRBY on `reserved_stock:s`: adds to a live key keeping its TTL,
otherwise creates the key with value `q` and no TTL. -/
def aggIncrBy (st : Store) (now : Nat) (s : String) (q : Int) : Store :=
  match aggFind st s with
  | some e =>
    if e.live now then aggSet st ⟨s, e.value + q, e.expiresAt⟩
    else aggSet st ⟨s, q, none⟩
  | none => aggSet st ⟨s, q, none⟩

/-- Redis EXPIRE on `reserved_stock:s`: resets the TTL of a live key,
no-op when the key is absent or already expired. -/
def aggExpire (st : Store) (now ttl : Nat) (s : String) : Store :=
  match aggFind st s with
  | some e => if e.live now then aggSet st ⟨s, e.value, some (now + ttl)⟩ else st
  | none => st

/-- Value of an Except, with a default for the error case (models a JS
catch block substituting a default). -/
def exceptD {ε α : Type} (x : Except ε α) (d : α) : α :=
  match x with
  | .ok v => v
  | .error _ => d

/-! ## redisService

Each operation takes a `fail` flag modelling "some underlying Redis client
call in this operation throws"; the Lean body then follows the function's
catch block.  `tGet` is the instant of the initial GET round trip and
`tExec` the instant of the later TTL read / MULTI-EXEC round trips
(sequential callers pass the same instant for both). -/

/-- redisService.reserveStock: GET of the caller's own reservation key, then
atomically SETEX reservation := existing+q, INCRBY aggregate by q, EXPIRE
aggregate to ttl.  No availability check of any kind is performed here. -/
def reserveStock (fail : Bool) (st : Store) (tGet tExec : Nat) (u s : String)
    (q ttl : Nat) : Store × Except String Bool :=
  if fail then (st, .error "redis error") else
  let existingQty := (resvGet st tGet u s).getD 0
  let newQty := existingQty + q
  let st1 := resvSetEx st tExec ttl u s newQty
  let st2 := aggIncrBy st1 tExec s (q : Int)
  let st3 := aggExpire st2 tExec ttl s
  (st3, .ok true)

/-- redisService.getReservedQuantity: GET of `reservation:u:s`; a thrown
client error is caught and 0 is returned. -/
def getReservedQuantity (fail : Bool) (st : Store) (now : Nat) (u s : String) :
    Except String Nat :=
  if fail then .ok 0 else .ok ((resvGet st now u s).getD 0)

/-- redisService.getTotalReservedStock: GET of `reserved_stock:s`; a thrown
client error is caught and 0 is returned. -/
def getTotalReservedStock (fail : Bool) (st : Store) (now : Nat) (s : String) :
    Except String Int :=
  if fail then .ok 0 else .ok ((aggGet st now s).getD 0)

/-- redisService.cancelReservation: GET, then (absent -> 0) or cancel
min(quantity, existing) (all of it when quantity is omitted), re-storing a
positive remainder under the surviving TTL (600s when the TTL read is not
positive) or deleting the key, and DECRBY the aggregate by the cancelled
amount.  Errors rethrow. -/
def cancelReservation (fail : Bool) (st : Store) (tGet tExec : Nat) (u s : String)
    (quantity : Option Nat) : Store × Except String Nat :=
  if fail then (st, .error "redis error") else
  match resvGet st tGet u s with
  | none => (st, .ok 0)
  | some existingQty =>
    let cancelQty := match quantity with | some q => min q existingQty | none => existingQty
    let remainingQty := existingQty - cancelQty
    let st1 :=
      if 0 < remainingQty then
        let t := resvTtl st tExec u s
        if 0 < t then resvSetEx st tExec t.toNat u s remainingQty
        else resvSetEx st tExec 600 u s remainingQty
      else resvDel st u s
    (aggIncrBy st1 tExec s (-(cancelQty : Int)), .ok cancelQty)

/-- redisService.releaseReservation: GET, then (absent -> false, not an
error), (existing < quantity -> throws), else same mechanics as cancel with
the explicit quantity.  Errors rethrow. -/
def releaseReservation (fail : Bool) (st : Store) (tGet tExec : Nat) (u s : String)
    (quantity : Nat) : Store × Except String Bool :=
  if fail then (st, .error "redis error") else
  match resvGet st tGet u s with
  | none => (st, .ok false)
  | some existingQty =>
    if existingQty < quantity then (st, .error "Cannot release more than reserved")
    else
      let remainingQty := existingQty - quantity
      let st1 :=
        if 0 < remainingQty then
          let t := resvTtl st tExec u s
          if 0 < t then resvSetEx st tExec t.toNat u s remainingQty
          else resvSetEx st tExec 600 u s remainingQty
        else resvDel st u s
      (aggIncrBy st1 tExec s (-(quantity : Int)), .ok true)

/-- redisService.getUserReservations: KEYS `reservation:u:*` (live keys
only) then GET each; a thrown client error is caught and [] is returned. -/
def getUserReservations (fail : Bool) (st : Store) (now : Nat) (u : String) :
    Except String (List (String × Nat)) :=
  if fail then .ok [] else
  .ok ((st.resv.filter (fun e => e.userId == u && e.live now)).map (fun e => (e.sku, e.qty)))

/-! ## productService -/

/-- productService.getProductBySku: findOne by sku with isActive true. -/
def getProductBySku (ps : List Product) (s : String) : Except String Product :=
  match ps.find? (fun p => p.sku == s && p.isActive) with
  | some p => .ok p
  | none => .error "Product not found"

/-- Result shape of productService.checkStockAvailability. -/
structure StockCheck where
  isAvailable : Bool
  availableStock : Int
  totalStock : Nat
  reservedStock : Int
  deriving DecidableEq, Repr

/-- productService.checkStockAvailability: reads totalStock from Mongo and
the aggregate reserved counter from Redis, compares the unclamped
difference, clamps the reported available stock at 0. -/
def checkStockAvailability (ps : List Product) (st : Store) (now : Nat)
    (s : String) (q : Nat) : Except String StockCheck :=
  match getProductBySku ps s with
  | .error m => .error m
  | .ok p =>
    let reservedStock := exceptD (getTotalReservedStock false st now s) 0
    let availableStock : Int := (p.totalStock : Int) - reservedStock
    .ok ⟨decide ((q : Int) ≤ availableStock), max 0 availableStock, p.totalStock, reservedStock⟩

/-- Save of the found product document after `totalStock -= quantity`:
updates the first active entry with the given sku. -/
def updateProduct : List Product → String → Nat → List Product
  | [], _, _ => []
  | p :: rest, s, q =>
    if p.sku == s && p.isActive then { p with totalStock := p.totalStock - q } :: rest
    else p :: updateProduct rest s q

/-- productService.reduceStock: load the active product, guard
totalStock >= quantity, then persist the decrement. -/
def reduceStock (ps : List Product) (s : String) (q : Nat) :
    Except String (List Product) :=
  match getProductBySku ps s with
  | .error m => .error m
  | .ok p =>
    if p.totalStock < q then .error "Insufficient stock"
    else .ok (updateProduct ps s q)

/-- Current totalStock of the active product with the given sku (0 if none). -/
def stockOf (ps : List Product) (s : String) : Nat :=
  match getProductBySku ps s with
  | .ok p => p.totalStock
  | .error _ => 0

/-! ## cartService -/

/-- An item of a reserve/cancel request body. -/
structure Item where
  sku : String
  quantity : Nat
  deriving DecidableEq, Repr

/-- One line of the cart view produced by cartService.getUserCart. -/
structure CartItem where
  sku : String
  name : String
  price : Nat
  quantity : Nat
  totalPrice : Nat
  deriving DecidableEq, Repr

/-- The cart view produced by cartService.getUserCart. -/
structure Cart where
  userId : String
  items : List CartItem
  totalItems : Nat
  totalAmount : Nat
  deriving DecidableEq, Repr

/-- cartService.getUserCart: join the user's live reservations with the
product catalog, silently skipping any reservation whose product lookup
fails (deleted or inactive product). -/
def getUserCart (ps : List Product) (st : Store) (now : Nat) (u : String) : Cart :=
  let reservations := exceptD (getUserReservations false st now u) []
  let cartItems := reservations.filterMap (fun r =>
    match getProductBySku ps r.1 with
    | .ok p => some ⟨p.sku, p.name, p.price, r.2, p.price * r.2⟩
    | .error _ => none)
  ⟨u, cartItems, cartItems.foldl (fun a i => a + i.quantity) 0,
    cartItems.foldl (fun a i => a + i.totalPrice) 0⟩

/-- Error kinds thrown by cartService.reserveItems. -/
inductive CartErr where
  | userNotFound
  | invalidItem (i : Item)
  | productError (msg : String)
  | insufficientStock (sku : String) (available : Int) (requested : Nat)
  deriving DecidableEq, Repr

/-- The compensating rollback loop of cartService.reserveItems: cancel each
already-reserved item of this batch; a failing cancel (`cancelFails` true
for that sku) is caught, logged and swallowed, leaving the store as it was. -/
def rollbackLoop (cancelFails : String → Bool) (u : String) (now : Nat) :
    List Item → Store → Store
  | [], st => st
  | i :: rest, st =>
    let st' := if cancelFails i.sku then st
      else (cancelReservation false st now now u i.sku (some i.quantity)).1
    rollbackLoop cancelFails u now rest st'

/-- The item loop of cartService.reserveItems: validate the item, check
availability, reserve; on any failure run the rollback over the items
already reserved in this call and rethrow the original error. -/
def reserveItemsGo (cancelFails : String → Bool) (ps : List Product) (u : String)
    (now ttl : Nat) : List Item → Store → List Item → Store × Except CartErr (List Item)
  | [], st, reserved => (st, .ok reserved)
  | i :: rest, st, reserved =>
    if i.sku == "" || i.quantity == 0 then
      (rollbackLoop cancelFails u now reserved st, .error (.invalidItem i))
    else
      match checkStockAvailability ps st now i.sku i.quantity with
      | .error m => (rollbackLoop cancelFails u now reserved st, .error (.productError m))
      | .ok chk =>
        if chk.isAvailable = false then
          (rollbackLoop cancelFails u now reserved st,
            .error (.insufficientStock i.sku chk.availableStock i.quantity))
        else
          reserveItemsGo cancelFails ps u now ttl rest
            (reserveStock false st now now u i.sku i.quantity ttl).1 (reserved ++ [i])

/-- cartService.reserveItems: user-existence gate, then the sequential
per-item check-and-reserve loop with best-effort compensating rollback. -/
def reserveItems (cancelFails : String → Bool) (ps : List Product) (userOk : Bool)
    (st : Store) (now : Nat) (u : String) (items : List Item) (ttl : Nat) :
    Store × Except CartErr (List Item) :=
  if userOk = false then (st, .error .userNotFound)
  else reserveItemsGo cancelFails ps u now ttl items st []

/-! ## checkoutService -/

/-- A {sku, quantity, price} snapshot line of an order. -/
structure OrderItem where
  sku : String
  quantity : Nat
  price : Nat
  deriving DecidableEq, Repr

/-- An order document (MongoDB). -/
structure Order where
  userId : String
  items : List OrderItem
  totalAmount : Nat
  status : String
  deriving DecidableEq, Repr

/-- The whole persistent world touched by checkout. -/
structure Sys where
  products : List Product
  orders : List Order
  store : Store
  deriving DecidableEq, Repr

/-- One collected checkout validation violation. -/
inductive Violation where
  | qtyMismatch (sku : String) (reserved : Nat) (cartQty : Nat)
  | insufficient (sku : String) (available : Int) (required : Nat)
  deriving DecidableEq, Repr

/-- Error kinds thrown by checkoutService.processCheckout. -/
inductive CheckoutErr where
  | userNotFound
  | emptyCart
  | validationFailed (errs : List Violation)
  | internalError (msg : String)
  | stockError (msg : String)
  | releaseError (msg : String)
  deriving DecidableEq, Repr

/-- Observable persistence events of a checkout run, in order. -/
inductive Ev where
  | orderSaved
  | stockReduced (sku : String)
  | released (sku : String)
  deriving DecidableEq, Repr

/-- The success payload of processCheckout. -/
structure CheckoutResult where
  userId : String
  items : List OrderItem
  totalAmount : Nat
  deriving DecidableEq, Repr

/-- The validation loop of processCheckout: for every cart item collect a
quantity-mismatch violation and an insufficient-stock violation; a thrown
product lookup error aborts the loop. -/
def validateLoop (ps : List Product) (st : Store) (now : Nat) (u : String) :
    List CartItem → Except String (List Violation)
  | [] => .ok []
  | i :: rest =>
    let rq := exceptD (getReservedQuantity false st now u i.sku) 0
    let v1 : List Violation :=
      if rq < i.quantity then [.qtyMismatch i.sku rq i.quantity] else []
    match checkStockAvailability ps st now i.sku i.quantity with
    | .error m => .error m
    | .ok chk =>
      let v2 : List Violation :=
        if chk.isAvailable = false then [.insufficient i.sku chk.availableStock i.quantity]
        else []
      match validateLoop ps st now u rest with
      | .error m => .error m
      | .ok vs => .ok (v1 ++ v2 ++ vs)

/-- The stock-reduction loop of processCheckout: reduceStock for each cart
item in order; a throw aborts the loop keeping the prefix of decrements. -/
def reduceLoop : List Product → List CartItem → List Product × List Ev × Option String
  | ps, [] => (ps, [], none)
  | ps, i :: rest =>
    match reduceStock ps i.sku i.quantity with
    | .error m => (ps, [], some m)
    | .ok ps' =>
      let r := reduceLoop ps' rest
      (r.1, .stockReduced i.sku :: r.2.1, r.2.2)

/-- The release loop of processCheckout: releaseReservation for each cart
item in order; a throw aborts the loop keeping the prefix of releases. -/
def releaseLoop (u : String) (now : Nat) :
    Store → List CartItem → Store × List Ev × Option String
  | st, [] => (st, [], none)
  | st, i :: rest =>
    match releaseReservation false st now now u i.sku i.quantity with
    | (st', .error m) => (st', [], some m)
    | (st', .ok _) =>
      let r := releaseLoop u now st' rest
      (r.1, .released i.sku :: r.2.1, r.2.2)

/-- checkoutService.processCheckout: user gate, cart load, EmptyCart gate,
validation (collect all violations), order save, stock decrements, hold
releases, in that order. -/
def processCheckout (userOk : Bool) (sys : Sys) (now : Nat) (u : String) :
    Sys × List Ev × Except CheckoutErr CheckoutResult :=
  if userOk = false then (sys, [], .error .userNotFound) else
  let cart := getUserCart sys.products sys.store now u
  if cart.items.isEmpty then (sys, [], .error .emptyCart) else
  match validateLoop sys.products sys.store now u cart.items with
  | .error m => (sys, [], .error (.internalError m))
  | .ok verrs =>
    if verrs.isEmpty = false then (sys, [], .error (.validationFailed verrs)) else
    let orderItems := cart.items.map (fun i => OrderItem.mk i.sku i.quantity i.price)
    let order : Order := ⟨u, orderItems, cart.totalAmount, "completed"⟩
    let sys1 : Sys := { sys with orders := sys.orders ++ [order] }
    match reduceLoop sys1.products cart.items with
    | (ps', evs1, some m) =>
      ({ sys1 with products := ps' }, Ev.orderSaved :: evs1, .error (.stockError m))
    | (ps', evs1, none) =>
      let sys2 : Sys := { sys1 with products := ps' }
      match releaseLoop u now sys2.store cart.items with
      | (st', evs2, some m) =>
        ({ sys2 with store := st' }, Ev.orderSaved :: (evs1 ++ evs2),
          .error (.releaseError m))
      | (st', evs2, none) =>
        ({ sys2 with store := st' }, Ev.orderSaved :: (evs1 ++ evs2),
          .ok ⟨u, orderItems, cart.totalAmount⟩)

/-! ## Spec-side definitions -/

/-- Spec-side (from the spec's words, for comparison with the stored
aggregate counter): the sum of the quantities of all non-expired
per-(user, sku) reservations for a SKU. -/
def sumLiveResv (st : Store) (now : Nat) (s : String) : Nat :=
  ((st.resv.filter (fun e => e.sku == s && e.live now)).map (fun e => e.qty)).sum

/-! ## Store lemmas -/

theorem find?_filter_of_imp {α : Type} (p q : α → Bool)
    (h : ∀ a, p a = true → q a = true) :
    ∀ l : List α, (l.filter q).find? p = l.find? p := by
  intro l
  induction l with
  | nil => rfl
  | cons a t ih =>
    cases hq : q a with
    | true =>
      rw [List.filter_cons_of_pos hq]
      cases hp : p a with
      | true => rw [List.find?_cons_of_pos _ hp, List.find?_cons_of_pos _ hp]
      | false =>
        rw [List.find?_cons_of_neg _ (by simp [hp]), List.find?_cons_of_neg _ (by simp [hp])]
        exact ih
    | false =>
      have hp : p a = false := by
        cases hpa : p a with
        | true => rw [h a hpa] at hq; cases hq
        | false => rfl
      rw [List.filter_cons_of_neg (by simp [hq]), List.find?_cons_of_neg _ (by simp [hp])]
      exact ih

theorem find?_filter_of_excl {α : Type} (p q : α → Bool)
    (h : ∀ a, p a = true → q a = false) :
    ∀ l : List α, (l.filter q).find? p = none := by
  intro l
  induction l with
  | nil => rfl
  | cons a t ih =>
    cases hq : q a with
    | true =>
      have hp : p a = false := by
        cases hpa : p a with
        | true => rw [h a hpa] at hq; cases hq
        | false => rfl
      rw [List.filter_cons_of_pos hq, List.find?_cons_of_neg _ (by simp [hp])]
      exact ih
    | false =>
      rw [List.filter_cons_of_neg (by simp [hq])]
      exact ih

theorem resvFind_setEx_self {st : Store} {now ttl : Nat} {u s : String} {q : Nat} :
    resvFind (resvSetEx st now ttl u s q) u s = some ⟨u, s, q, now + ttl⟩ := by
  unfold resvFind resvSetEx
  dsimp only
  rw [List.find?_cons_of_pos _ (by simp)]

theorem resvFind_setEx_ne {st : Store} {now ttl : Nat} {u s u' s' : String} {q : Nat}
    (h : ¬(u' = u ∧ s' = s)) :
    resvFind (resvSetEx st now ttl u s q) u' s' = resvFind st u' s' := by
  unfold resvFind resvSetEx
  dsimp only
  rw [List.find?_cons_of_neg _ (by
    simp only [Bool.and_eq_true, beq_iff_eq, not_and]
    intro h1 h2
    exact h ⟨h1.symm, h2.symm⟩)]
  refine find?_filter_of_imp _ _ ?_ st.resv
  intro e he
  simp only [Bool.and_eq_true, beq_iff_eq] at he
  simp only [Bool.not_eq_true', Bool.and_eq_false_iff, beq_eq_false_iff_ne, ne_eq]
  by_cases hu : e.userId = u
  · right
    intro hs
    exact h ⟨he.1.symm.trans hu, he.2.symm.trans hs⟩
  · left
    exact hu

theorem resvFind_del_self {st : Store} {u s : String} :
    resvFind (resvDel st u s) u s = none := by
  unfold resvFind resvDel
  refine find?_filter_of_excl _ _ ?_ st.resv
  intro e he
  simp only [Bool.and_eq_true, beq_iff_eq] at he
  simp [he.1, he.2]

theorem resvFind_del_ne {st : Store} {u s u' s' : String}
    (h : ¬(u' = u ∧ s' = s)) :
    resvFind (resvDel st u s) u' s' = resvFind st u' s' := by
  unfold resvFind resvDel
  refine find?_filter_of_imp _ _ ?_ st.resv
  intro e he
  simp only [Bool.and_eq_true, beq_iff_eq] at he
  simp only [Bool.not_eq_true', Bool.and_eq_false_iff, beq_eq_false_iff_ne, ne_eq]
  by_cases hu : e.userId = u
  · right
    intro hs
    exact h ⟨he.1.symm.trans hu, he.2.symm.trans hs⟩
  · left
    exact hu

theorem aggFind_set_self {st : Store} {e : AggEntry} :
    aggFind (aggSet st e) e.sku = some e := by
  unfold aggFind aggSet
  dsimp only
  rw [List.find?_cons_of_pos _ (by simp)]

theorem resv_aggSet {st : Store} {e : AggEntry} : (aggSet st e).resv = st.resv := rfl

theorem resv_aggIncrBy {st : Store} {now : Nat} {s : String} {q : Int} :
    (aggIncrBy st now s q).resv = st.resv := by
  unfold aggIncrBy
  cases aggFind st s with
  | none => rfl
  | some e =>
    by_cases hl : e.live now
    · simp [hl, aggSet]
    · simp [hl, aggSet]

theorem resv_aggExpire {st : Store} {now ttl : Nat} {s : String} :
    (aggExpire st now ttl s).resv = st.resv := by
  unfold aggExpire
  cases aggFind st s with
  | none => rfl
  | some e =>
    by_cases hl : e.live now
    · simp [hl, aggSet]
    · simp [hl, aggSet]

theorem resvFind_aggIncrBy {st : Store} {now : Nat} {s0 : String} {q : Int}
    {u s : String} :
    resvFind (aggIncrBy st now s0 q) u s = resvFind st u s := by
  unfold resvFind
  rw [resv_aggIncrBy]

theorem resvFind_aggExpire {st : Store} {now ttl : Nat} {s0 : String} {u s : String} :
    resvFind (aggExpire st now ttl s0) u s = resvFind st u s := by
  unfold resvFind
  rw [resv_aggExpire]

theorem resvGet_setEx_self_live {st : Store} {now ttl now' : Nat} {u s : String} {q : Nat}
    (h : now' < now + ttl) :
    resvGet (resvSetEx st now ttl u s q) now' u s = some q := by
  unfold resvGet
  rw [resvFind_setEx_self]
  simp [ResvEntry.live, h]

theorem resvGet_setEx_ne {st : Store} {now ttl now' : Nat} {u s u' s' : String} {q : Nat}
    (h : ¬(u' = u ∧ s' = s)) :
    resvGet (resvSetEx st now ttl u s q) now' u' s' = resvGet st now' u' s' := by
  unfold resvGet
  rw [resvFind_setEx_ne h]

theorem resvGet_del_self {st : Store} {now : Nat} {u s : String} :
    resvGet (resvDel st u s) now u s = none := by
  unfold resvGet
  rw [resvFind_del_self]

theorem resvGet_del_ne {st : Store} {now : Nat} {u s u' s' : String}
    (h : ¬(u' = u ∧ s' = s)) :
    resvGet (resvDel st u s) now u' s' = resvGet st now u' s' := by
  unfold resvGet
  rw [resvFind_del_ne h]

theorem resvGet_aggIncrBy {st : Store} {now0 now : Nat} {s0 : String} {q : Int}
    {u s : String} :
    resvGet (aggIncrBy st now0 s0 q) now u s = resvGet st now u s := by
  unfold resvGet
  rw [resvFind_aggIncrBy]

theorem resvGet_aggExpire {st : Store} {now0 ttl now : Nat} {s0 : String} {u s : String} :
    resvGet (aggExpire st now0 ttl s0) now u s = resvGet st now u s := by
  unfold resvGet
  rw [resvFind_aggExpire]

theorem aggGet_resvSetEx {st : Store} {now ttl : Nat} {u s : String} {q : Nat}
    {now' : Nat} {s' : String} :
    aggGet (resvSetEx st now ttl u s q) now' s' = aggGet st now' s' := rfl

theorem aggGet_resvDel {st : Store} {u s : String} {now' : Nat} {s' : String} :
    aggGet (resvDel st u s) now' s' = aggGet st now' s' := rfl

theorem getTotal_aggIncrBy {st : Store} {now : Nat} {s : String} {c : Int} :
    getTotalReservedStock false (aggIncrBy st now s c) now s =
      .ok (exceptD (getTotalReservedStock false st now s) 0 + c) := by
  unfold getTotalReservedStock aggIncrBy exceptD
  cases h : aggFind st s with
  | none =>
    simp only [if_neg Bool.false_ne_true, aggGet, h]
    have : aggFind (aggSet st ⟨s, c, none⟩) s = some ⟨s, c, none⟩ := aggFind_set_self
    rw [this]
    simp [AggEntry.live]
  | some e =>
    by_cases hl : e.live now
    · simp only [if_neg Bool.false_ne_true, hl, if_pos, aggGet, h]
      have : aggFind (aggSet st ⟨s, e.value + c, e.expiresAt⟩) s =
          some ⟨s, e.value + c, e.expiresAt⟩ := aggFind_set_self
      rw [this]
      simp only [hl, if_pos]
      have hl' : AggEntry.live ⟨s, e.value + c, e.expiresAt⟩ now = true := hl
      simp [hl']
    · simp only [if_neg Bool.false_ne_true, hl, if_neg, aggGet, h]
      have : aggFind (aggSet st ⟨s, c, none⟩) s = some ⟨s, c, none⟩ := aggFind_set_self
      rw [this]
      have hl' : AggEntry.live ⟨s, c, none⟩ now = true := rfl
      simp [hl', hl, AggEntry.live]

theorem live_lt {e : ResvEntry} {now : Nat} (h : e.live now = true) : now < e.expiresAt := by
  simpa [ResvEntry.live] using h

theorem resvGet_some_elim {st : Store} {now : Nat} {u s : String} {h : Nat}
    (hget : resvGet st now u s = some h) :
    ∃ e : ResvEntry, resvFind st u s = some e ∧ e.live now = true ∧ e.qty = h := by
  unfold resvGet at hget
  cases hf : resvFind st u s with
  | none => rw [hf] at hget; cases hget
  | some e =>
    rw [hf] at hget
    dsimp only at hget
    by_cases hl : e.live now = true
    · rw [if_pos hl] at hget
      exact ⟨e, rfl, hl, Option.some.inj hget⟩
    · rw [if_neg hl] at hget; cases hget

theorem getTotal_resvSetEx {st : Store} {now ttl : Nat} {u s : String} {q : Nat}
    {now' : Nat} {s' : String} :
    getTotalReservedStock false (resvSetEx st now ttl u s q) now' s' =
      getTotalReservedStock false st now' s' := rfl

theorem getTotal_resvDel {st : Store} {u s : String} {now' : Nat} {s' : String} :
    getTotalReservedStock false (resvDel st u s) now' s' =
      getTotalReservedStock false st now' s' := rfl

/-- Exact characterization of a non-failing cancelReservation hitting a live
reservation key, both round trips at the same instant `now`. -/
theorem cancel_core {st : Store} {now : Nat} {u s : String} {e : ResvEntry}
    {oq : Option Nat} {c : Nat}
    (hf : resvFind st u s = some e) (hlive : e.live now = true)
    (hc : c = match oq with | some q => min q e.qty | none => e.qty) :
    cancelReservation false st now now u s oq =
      ((aggIncrBy (if 0 < e.qty - c then
          resvSetEx st now (e.expiresAt - now) u s (e.qty - c)
        else resvDel st u s) now s (-(c : Int))), .ok c) := by
  have hget : resvGet st now u s = some e.qty := by
    unfold resvGet
    rw [hf]
    dsimp only
    rw [if_pos hlive]
  have hlt := live_lt hlive
  have httl : resvTtl st now u s = (e.expiresAt : Int) - now := by
    unfold resvTtl
    rw [hf]
    dsimp only
    rw [if_pos hlive]
  simp only [cancelReservation, Bool.false_eq_true, if_false, hget, ← hc]
  by_cases hr : 0 < e.qty - c
  · rw [if_pos hr, if_pos hr, httl, if_pos (by omega)]
    have : ((e.expiresAt : Int) - (now : Int)).toNat = e.expiresAt - now := by omega
    rw [this]
  · rw [if_neg hr, if_neg hr]

/-- Exact characterization of a non-failing releaseReservation hitting a live
reservation key with enough held quantity, both round trips at `now`. -/
theorem release_core {st : Store} {now : Nat} {u s : String} {e : ResvEntry} {q : Nat}
    (hf : resvFind st u s = some e) (hlive : e.live now = true) (hq : q ≤ e.qty) :
    releaseReservation false st now now u s q =
      ((aggIncrBy (if 0 < e.qty - q then
          resvSetEx st now (e.expiresAt - now) u s (e.qty - q)
        else resvDel st u s) now s (-(q : Int))), .ok true) := by
  have hget : resvGet st now u s = some e.qty := by
    unfold resvGet
    rw [hf]
    dsimp only
    rw [if_pos hlive]
  have hlt := live_lt hlive
  have httl : resvTtl st now u s = (e.expiresAt : Int) - now := by
    unfold resvTtl
    rw [hf]
    dsimp only
    rw [if_pos hlive]
  simp only [releaseReservation, Bool.false_eq_true, if_false, hget]
  rw [if_neg (by omega)]
  by_cases hr : 0 < e.qty - q
  · rw [if_pos hr, if_pos hr, httl, if_pos (by omega)]
    have : ((e.expiresAt : Int) - (now : Int)).toNat = e.expiresAt - now := by omega
    rw [this]
  · rw [if_neg hr, if_neg hr]

theorem cart_items_of_dead (ps : List Product) :
    ∀ l : List (String × Nat),
      (∀ r ∈ l, getProductBySku ps r.1 = .error "Product not found") →
      l.filterMap (fun r =>
        match getProductBySku ps r.1 with
        | .ok p => some (⟨p.sku, p.name, p.price, r.2, p.price * r.2⟩ : CartItem)
        | .error _ => none) = [] := by
  intro l
  induction l with
  | nil => intro hl; rfl
  | cons r t ih =>
    intro hl
    rw [List.filterMap_cons]
    rw [hl r (List.mem_cons_self r t)]
    exact ih (fun r' hr' => hl r' (List.mem_cons_of_mem _ hr'))

theorem getUserCart_of_dead {ps : List Product} {st : Store} {now : Nat} {u : String}
    (hdead : ∀ e ∈ st.resv, e.userId = u → e.live now = true →
      getProductBySku ps e.sku = .error "Product not found") :
    getUserCart ps st now u = ⟨u, [], 0, 0⟩ := by
  unfold getUserCart getUserReservations exceptD
  simp only [Bool.false_eq_true, if_false]
  rw [cart_items_of_dead ps _ ?side]
  · rfl
  case side =>
    intro r hr
    obtain ⟨e, he, hre⟩ := List.mem_map.mp hr
    obtain ⟨he1, he2⟩ := List.mem_filter.mp he
    simp only [Bool.and_eq_true, beq_iff_eq] at he2
    rw [← hre]
    exact hdead e he1 he2.1 he2.2

theorem validateLoop_mem_qtyMismatch (ps : List Product) (st : Store) (now : Nat)
    (u : String) :
    ∀ (items : List CartItem) (vs : List Violation),
      validateLoop ps st now u items = .ok vs →
      ∀ i ∈ items, exceptD (getReservedQuantity false st now u i.sku) 0 < i.quantity →
        Violation.qtyMismatch i.sku (exceptD (getReservedQuantity false st now u i.sku) 0)
          i.quantity ∈ vs := by
  intro items
  induction items with
  | nil => intro vs hv i hi; cases hi
  | cons j rest ih =>
    intro vs hv i hi hlt
    unfold validateLoop at hv
    cases hchk : checkStockAvailability ps st now j.sku j.quantity with
    | error m => rw [hchk] at hv; cases hv
    | ok chk =>
      rw [hchk] at hv
      dsimp only at hv
      cases hrest : validateLoop ps st now u rest with
      | error m => rw [hrest] at hv; cases hv
      | ok vs' =>
        rw [hrest] at hv
        dsimp only at hv
        have hvs := Except.ok.inj hv
        subst hvs
        rcases List.mem_cons.mp hi with rfl | hmem
        · rw [if_pos hlt]
          exact List.mem_append_left _ (List.mem_append_left _ (List.mem_singleton.mpr rfl))
        · exact List.mem_append_right _ (ih vs' hrest i hmem hlt)

theorem validateLoop_mem_insufficient (ps : List Product) (st : Store) (now : Nat)
    (u : String) :
    ∀ (items : List CartItem) (vs : List Violation),
      validateLoop ps st now u items = .ok vs →
      ∀ i ∈ items, ∀ chk,
        checkStockAvailability ps st now i.sku i.quantity = .ok chk →
        chk.isAvailable = false →
        Violation.insufficient i.sku chk.availableStock i.quantity ∈ vs := by
  intro items
  induction items with
  | nil => intro vs hv i hi; cases hi
  | cons j rest ih =>
    intro vs hv i hi chk hchk hfalse
    unfold validateLoop at hv
    rcases List.mem_cons.mp hi with rfl | hmem
    · rw [hchk] at hv
      dsimp only at hv
      cases hrest : validateLoop ps st now u rest with
      | error m => rw [hrest] at hv; cases hv
      | ok vs' =>
        rw [hrest] at hv
        dsimp only at hv
        have hvs := Except.ok.inj hv
        subst hvs
        rw [hfalse]
        simp only [if_pos]
        exact List.mem_append_left _
          (List.mem_append_right _ (List.mem_singleton.mpr rfl))
    · cases hchk0 : checkStockAvailability ps st now j.sku j.quantity with
      | error m => rw [hchk0] at hv; cases hv
      | ok chk0 =>
        rw [hchk0] at hv
        dsimp only at hv
        cases hrest : validateLoop ps st now u rest with
        | error m => rw [hrest] at hv; cases hv
        | ok vs' =>
          rw [hrest] at hv
          dsimp only at hv
          have hvs := Except.ok.inj hv
          subst hvs
          exact List.mem_append_right _ (ih vs' hrest i hmem chk hchk hfalse)

theorem find?P_updateProduct_ne {s s' : String} (h : s' ≠ s) :
    ∀ (ps : List Product) (q : Nat),
      (updateProduct ps s q).find? (fun x => x.sku == s' && x.isActive) =
        ps.find? (fun x => x.sku == s' && x.isActive) := by
  intro ps
  induction ps with
  | nil => intro q; rfl
  | cons p rest ih =>
    intro q
    unfold updateProduct
    cases hm : (p.sku == s && p.isActive) with
    | true =>
      rw [if_pos rfl]
      have hms : p.sku = s := by
        simp only [Bool.and_eq_true, beq_iff_eq] at hm
        exact hm.1
      have hnp : (p.sku == s') = false := by
        simp only [beq_eq_false_iff_ne, ne_eq, hms]
        exact fun hs => h hs.symm
      simp only [List.find?_cons, hnp, Bool.false_and]
    | false =>
      rw [if_neg (by simp)]
      cases hp' : (p.sku == s' && p.isActive) with
      | true => simp only [List.find?_cons, hp']
      | false =>
        simp only [List.find?_cons, hp']
        exact ih q

theorem getProductBySku_updateProduct_ne {s s' : String} {ps : List Product} {q : Nat}
    (h : s' ≠ s) :
    getProductBySku (updateProduct ps s q) s' = getProductBySku ps s' := by
  unfold getProductBySku
  rw [find?P_updateProduct_ne h]

theorem find?P_updateProduct_self {s : String} :
    ∀ (ps : List Product) (q : Nat) (p : Product),
      ps.find? (fun x => x.sku == s && x.isActive) = some p →
      (updateProduct ps s q).find? (fun x => x.sku == s && x.isActive) =
        some { p with totalStock := p.totalStock - q } := by
  intro ps
  induction ps with
  | nil => intro q p hp; cases hp
  | cons a rest ih =>
    intro q p hp
    unfold updateProduct
    cases hm : (a.sku == s && a.isActive) with
    | true =>
      simp only [List.find?_cons, hm] at hp
      have hap := Option.some.inj hp
      subst hap
      rw [if_pos rfl]
      simp only [List.find?_cons, hm]
    | false =>
      simp only [List.find?_cons, hm] at hp
      rw [if_neg (by simp)]
      simp only [List.find?_cons, hm]
      exact ih q p hp

theorem getProductBySku_updateProduct_self {s : String} {ps : List Product} {q : Nat}
    {p : Product} (h : getProductBySku ps s = .ok p) :
    getProductBySku (updateProduct ps s q) s =
      .ok { p with totalStock := p.totalStock - q } := by
  unfold getProductBySku at h ⊢
  cases hf : ps.find? (fun x => x.sku == s && x.isActive) with
  | none => rw [hf] at h; cases h
  | some p0 =>
    rw [hf] at h
    have hp0 := Except.ok.inj h
    subst hp0
    rw [find?P_updateProduct_self ps q p0 hf]

theorem stockOf_congr {ps1 ps2 : List Product} {s : String}
    (h : getProductBySku ps1 s = getProductBySku ps2 s) :
    stockOf ps1 s = stockOf ps2 s := by
  unfold stockOf
  rw [h]

theorem reduceStock_ok {ps ps' : List Product} {s : String} {q : Nat}
    (h : reduceStock ps s q = .ok ps') :
    ∃ p, getProductBySku ps s = .ok p ∧ ¬(p.totalStock < q) ∧ ps' = updateProduct ps s q := by
  unfold reduceStock at h
  cases hg : getProductBySku ps s with
  | error m => rw [hg] at h; cases h
  | ok p =>
    rw [hg] at h
    dsimp only at h
    by_cases hlt : p.totalStock < q
    · rw [if_pos hlt] at h; cases h
    · rw [if_neg hlt] at h
      exact ⟨p, rfl, hlt, (Except.ok.inj h).symm⟩

theorem reduceLoop_cons (ps : List Product) (i : CartItem) (rest : List CartItem) :
    reduceLoop ps (i :: rest) =
      match reduceStock ps i.sku i.quantity with
      | .error m => (ps, [], some m)
      | .ok ps0 => ((reduceLoop ps0 rest).1,
          Ev.stockReduced i.sku :: (reduceLoop ps0 rest).2.1, (reduceLoop ps0 rest).2.2) := rfl

theorem releaseLoop_cons (u : String) (now : Nat) (st : Store) (i : CartItem)
    (rest : List CartItem) :
    releaseLoop u now st (i :: rest) =
      match releaseReservation false st now now u i.sku i.quantity with
      | (st1, .error m) => (st1, [], some m)
      | (st1, .ok _) => ((releaseLoop u now st1 rest).1,
          Ev.released i.sku :: (releaseLoop u now st1 rest).2.1,
          (releaseLoop u now st1 rest).2.2) := rfl

theorem reduceLoop_stockOf_ne {S : String} :
    ∀ (items : List CartItem) (ps : List Product), (∀ i ∈ items, i.sku ≠ S) →
      stockOf (reduceLoop ps items).1 S = stockOf ps S := by
  intro items
  induction items with
  | nil => intro ps h; rfl
  | cons i rest ih =>
    intro ps h
    rw [reduceLoop_cons]
    cases hr : reduceStock ps i.sku i.quantity with
    | error m => rfl
    | ok ps0 =>
      dsimp only
      rw [ih ps0 (fun j hj => h j (List.mem_cons_of_mem _ hj))]
      obtain ⟨p0, hp0, hlt0, hup⟩ := reduceStock_ok hr
      subst hup
      exact stockOf_congr (getProductBySku_updateProduct_ne (h i (List.mem_cons_self i rest)).symm)

theorem reduceLoop_ok_split {b : List CartItem} :
    ∀ (a : List CartItem) (ps psF : List Product) (evsF : List Ev),
      reduceLoop ps (a ++ b) = (psF, evsF, none) →
      ∃ psA evsA evsB, reduceLoop ps a = (psA, evsA, none)
        ∧ reduceLoop psA b = (psF, evsB, none) ∧ evsF = evsA ++ evsB := by
  intro a
  induction a with
  | nil => intro ps psF evsF h; exact ⟨ps, [], evsF, rfl, h, rfl⟩
  | cons i rest ih =>
    intro ps psF evsF h
    rw [List.cons_append, reduceLoop_cons] at h
    cases hr : reduceStock ps i.sku i.quantity with
    | error m =>
      rw [hr] at h
      dsimp only at h
      simp only [Prod.mk.injEq] at h
      cases h.2.2
    | ok ps0 =>
      rw [hr] at h
      dsimp only at h
      rcases hR : reduceLoop ps0 (rest ++ b) with ⟨psR, evsR, rR⟩
      rw [hR] at h
      simp only [Prod.mk.injEq] at h
      obtain ⟨h1, h2, h3⟩ := h
      obtain ⟨psA, evsA, evsB, hA, hB, hEv⟩ := ih ps0 psR evsR (by rw [hR, h3])
      refine ⟨psA, Ev.stockReduced i.sku :: evsA, evsB, ?_, ?_, ?_⟩
      · rw [reduceLoop_cons, hr]
        dsimp only
        rw [hA]
      · rw [← h1]
        exact hB
      · rw [← h2, hEv]
        rfl

theorem reduceLoop_ok_events :
    ∀ (items : List CartItem) (ps psF : List Product) (evsF : List Ev),
      reduceLoop ps items = (psF, evsF, none) →
      evsF = items.map (fun i => Ev.stockReduced i.sku) := by
  intro items
  induction items with
  | nil =>
    intro ps psF evsF h
    simp only [reduceLoop, Prod.mk.injEq] at h
    exact h.2.1.symm
  | cons i rest ih =>
    intro ps psF evsF h
    rw [reduceLoop_cons] at h
    cases hr : reduceStock ps i.sku i.quantity with
    | error m =>
      rw [hr] at h
      dsimp only at h
      simp only [Prod.mk.injEq] at h
      cases h.2.2
    | ok ps0 =>
      rw [hr] at h
      dsimp only at h
      rcases hR : reduceLoop ps0 rest with ⟨psR, evsR, rR⟩
      rw [hR] at h
      simp only [Prod.mk.injEq] at h
      obtain ⟨h1, h2, h3⟩ := h
      subst h3
      rw [← h2, List.map_cons, ih ps0 psR evsR hR]

theorem resvFind_release_preserve {st : Store} {t : Nat} {u s' : String} {q : Nat}
    {S : String} (h : S ≠ s') :
    resvFind (releaseReservation false st t t u s' q).1 u S = resvFind st u S := by
  simp only [releaseReservation, Bool.false_eq_true, if_false]
  cases hg : resvGet st t u s' with
  | none => rfl
  | some ex =>
    dsimp only
    by_cases hlt : ex < q
    · rw [if_pos hlt]
    · rw [if_neg hlt]
      dsimp only
      by_cases hr : 0 < ex - q
      · rw [if_pos hr]
        by_cases ht : 0 < resvTtl st t u s'
        · rw [if_pos ht]
          rw [resvFind_aggIncrBy, resvFind_setEx_ne (by rintro ⟨h1, h2⟩; exact h h2)]
        · rw [if_neg ht]
          rw [resvFind_aggIncrBy, resvFind_setEx_ne (by rintro ⟨h1, h2⟩; exact h h2)]
      · rw [if_neg hr]
        rw [resvFind_aggIncrBy, resvFind_del_ne (by rintro ⟨h1, h2⟩; exact h h2)]

theorem releaseLoop_resvFind_ne {u : String} {now : Nat} {S : String} :
    ∀ (items : List CartItem) (st : Store), (∀ i ∈ items, i.sku ≠ S) →
      resvFind (releaseLoop u now st items).1 u S = resvFind st u S := by
  intro items
  induction items with
  | nil => intro st h; rfl
  | cons i rest ih =>
    intro st h
    rw [releaseLoop_cons]
    rcases hrel : releaseReservation false st now now u i.sku i.quantity with ⟨st1, res⟩
    have hst1 : st1 = (releaseReservation false st now now u i.sku i.quantity).1 := by
      rw [hrel]
    cases res with
    | error m =>
      dsimp only
      rw [hst1, resvFind_release_preserve (Ne.symm (h i (List.mem_cons_self i rest)))]
    | ok bb =>
      dsimp only
      rw [ih st1 (fun j hj => h j (List.mem_cons_of_mem _ hj))]
      rw [hst1, resvFind_release_preserve (Ne.symm (h i (List.mem_cons_self i rest)))]

theorem releaseLoop_ok_split {u : String} {now : Nat} {b : List CartItem} :
    ∀ (a : List CartItem) (st stF : Store) (evsF : List Ev),
      releaseLoop u now st (a ++ b) = (stF, evsF, none) →
      ∃ stA evsA evsB, releaseLoop u now st a = (stA, evsA, none)
        ∧ releaseLoop u now stA b = (stF, evsB, none) ∧ evsF = evsA ++ evsB := by
  intro a
  induction a with
  | nil => intro st stF evsF h; exact ⟨st, [], evsF, rfl, h, rfl⟩
  | cons i rest ih =>
    intro st stF evsF h
    rw [List.cons_append, releaseLoop_cons] at h
    rcases hrel : releaseReservation false st now now u i.sku i.quantity with ⟨st1, res⟩
    rw [hrel] at h
    cases res with
    | error m =>
      dsimp only at h
      simp only [Prod.mk.injEq] at h
      cases h.2.2
    | ok bb =>
      dsimp only at h
      rcases hR : releaseLoop u now st1 (rest ++ b) with ⟨stR, evsR, rR⟩
      rw [hR] at h
      simp only [Prod.mk.injEq] at h
      obtain ⟨h1, h2, h3⟩ := h
      obtain ⟨stA, evsA, evsB, hA, hB, hEv⟩ := ih st1 stR evsR (by rw [hR, h3])
      refine ⟨stA, Ev.released i.sku :: evsA, evsB, ?_, ?_, ?_⟩
      · rw [releaseLoop_cons, hrel]
        dsimp only
        rw [hA]
      · rw [← h1]
        exact hB
      · rw [← h2, hEv]
        rfl

theorem releaseLoop_ok_events {u : String} {now : Nat} :
    ∀ (items : List CartItem) (st stF : Store) (evsF : List Ev),
      releaseLoop u now st items = (stF, evsF, none) →
      evsF = items.map (fun i => Ev.released i.sku) := by
  intro items
  induction items with
  | nil =>
    intro st stF evsF h
    simp only [releaseLoop, Prod.mk.injEq] at h
    exact h.2.1.symm
  | cons i rest ih =>
    intro st stF evsF h
    rw [releaseLoop_cons] at h
    rcases hrel : releaseReservation false st now now u i.sku i.quantity with ⟨st1, res⟩
    rw [hrel] at h
    cases res with
    | error m =>
      dsimp only at h
      simp only [Prod.mk.injEq] at h
      cases h.2.2
    | ok bb =>
      dsimp only at h
      rcases hR : releaseLoop u now st1 rest with ⟨stR, evsR, rR⟩
      rw [hR] at h
      simp only [Prod.mk.injEq] at h
      obtain ⟨h1, h2, h3⟩ := h
      subst h3
      rw [← h2, List.map_cons, ih st1 stR evsR hR]

theorem find?_key_of_mem_nodup :
    ∀ (l : List ResvEntry) (e : ResvEntry), e ∈ l →
      (l.map (fun x => (x.userId, x.sku))).Nodup →
      l.find? (fun x => x.userId == e.userId && x.sku == e.sku) = some e := by
  intro l
  induction l with
  | nil => intro e he; cases he
  | cons a t ih =>
    intro e he hnd
    rw [List.map_cons, List.nodup_cons] at hnd
    rcases List.mem_cons.mp he with rfl | het
    · simp [List.find?_cons]
    · cases hk : (a.userId == e.userId && a.sku == e.sku) with
      | true =>
        exfalso
        simp only [Bool.and_eq_true, beq_iff_eq] at hk
        exact hnd.1 (by
          rw [hk.1, hk.2]
          exact List.mem_map_of_mem _ het)
      | false =>
        simp only [List.find?_cons, hk]
        exact ih e het hnd.2

theorem mem_key_unique {l : List ResvEntry} {e1 e2 : ResvEntry}
    (h1 : e1 ∈ l) (h2 : e2 ∈ l)
    (hnd : (l.map (fun x => (x.userId, x.sku))).Nodup)
    (hu : e1.userId = e2.userId) (hs : e1.sku = e2.sku) : e1 = e2 := by
  have f1 := find?_key_of_mem_nodup l e1 h1 hnd
  have f2 := find?_key_of_mem_nodup l e2 h2 hnd
  rw [hu, hs] at f1
  exact Option.some.inj (f1.symm.trans f2)

theorem getProductBySku_ok {ps : List Product} {s : String} {p : Product}
    (h : getProductBySku ps s = .ok p) : p.sku = s ∧ p.isActive = true := by
  unfold getProductBySku at h
  cases hf : ps.find? (fun x => x.sku == s && x.isActive) with
  | none => rw [hf] at h; cases h
  | some p0 =>
    rw [hf] at h
    dsimp only at h
    have hp := Except.ok.inj h
    subst hp
    have := List.find?_some hf
    simpa [Bool.and_eq_true, beq_iff_eq] using this

theorem cart_item_source {ps : List Product} {st : Store} {now : Nat} {u : String}
    {c : CartItem} (hc : c ∈ (getUserCart ps st now u).items) :
    ∃ e, e ∈ st.resv ∧ e.userId = u ∧ e.live now = true ∧ e.sku = c.sku
      ∧ e.qty = c.quantity := by
  unfold getUserCart getUserReservations exceptD at hc
  simp only [Bool.false_eq_true, if_false] at hc
  obtain ⟨r, hr, hfr⟩ := List.mem_filterMap.mp hc
  obtain ⟨e, he, hre⟩ := List.mem_map.mp hr
  obtain ⟨he1, he2⟩ := List.mem_filter.mp he
  simp only [Bool.and_eq_true, beq_iff_eq] at he2
  subst hre
  cases hp : getProductBySku ps e.sku with
  | error m => rw [hp] at hfr; cases hfr
  | ok p =>
    rw [hp] at hfr
    dsimp only at hfr
    have hcc := Option.some.inj hfr
    obtain ⟨hps, hpa⟩ := getProductBySku_ok hp
    refine ⟨e, he1, he2.1, he2.2, ?_, ?_⟩
    · rw [← hcc]
      exact hps.symm
    · rw [← hcc]

theorem processCheckout_ok_elim {sys sys' : Sys} {now : Nat} {u : String}
    {evs : List Ev} {r : CheckoutResult}
    (h : processCheckout true sys now u = (sys', evs, .ok r)) :
    ∃ verrs ps' evs1 st' evs2,
      validateLoop sys.products sys.store now u
        (getUserCart sys.products sys.store now u).items = .ok verrs
      ∧ reduceLoop sys.products (getUserCart sys.products sys.store now u).items =
          (ps', evs1, none)
      ∧ releaseLoop u now sys.store (getUserCart sys.products sys.store now u).items =
          (st', evs2, none)
      ∧ sys' = ⟨ps', sys.orders ++ [⟨u,
            (getUserCart sys.products sys.store now u).items.map
              (fun i => OrderItem.mk i.sku i.quantity i.price),
            (getUserCart sys.products sys.store now u).totalAmount, "completed"⟩], st'⟩
      ∧ evs = Ev.orderSaved :: (evs1 ++ evs2)
      ∧ r = ⟨u, (getUserCart sys.products sys.store now u).items.map
            (fun i => OrderItem.mk i.sku i.quantity i.price),
          (getUserCart sys.products sys.store now u).totalAmount⟩ := by
  unfold processCheckout at h
  rw [if_neg (by simp)] at h
  dsimp only at h
  by_cases hne : (getUserCart sys.products sys.store now u).items.isEmpty = true
  · rw [if_pos hne] at h
    simp at h
  · rw [if_neg hne] at h
    cases hv : validateLoop sys.products sys.store now u
        (getUserCart sys.products sys.store now u).items with
    | error m =>
      rw [hv] at h
      simp at h
    | ok verrs =>
      rw [hv] at h
      dsimp only at h
      by_cases hE : verrs.isEmpty = false
      · rw [if_pos hE] at h
        simp at h
      · rw [if_neg hE] at h
        rcases hrl : reduceLoop sys.products
            (getUserCart sys.products sys.store now u).items with ⟨ps', evs1, rr⟩
        rw [hrl] at h
        cases rr with
        | some m =>
          dsimp only at h
          simp at h
        | none =>
          dsimp only at h
          rcases hre : releaseLoop u now sys.store
              (getUserCart sys.products sys.store now u).items with ⟨st', evs2, r2⟩
          rw [hre] at h
          cases r2 with
          | some m =>
            dsimp only at h
            simp at h
          | none =>
            dsimp only at h
            simp only [Prod.mk.injEq] at h
            obtain ⟨h1, h2, h3⟩ := h
            exact ⟨verrs, ps', evs1, st', evs2, rfl, rfl, rfl, h1.symm, h2.symm,
              (Except.ok.inj h3).symm⟩

/-! ## Claims -/

/-- Claim C4: after a successful checkout that consumed a hold of quantity Q
on SKU S for user u (S occurring exactly once in the cart), exactly one new
order with status "completed" capturing the {sku, quantity, price} snapshots
has been appended, totalStock(S) has decreased by exactly Q, the user's
reserved quantity on S is 0, and the event trace is the order save followed
by all stock decrements followed by all releases, so the order is persisted
before any decrement and each decrement happens before the corresponding
release. -/
theorem c4_checkout_success_postconditions (sys sys' : Sys) (now : Nat) (u : String)
    (evs : List Ev) (r : CheckoutResult) (S : String) (Q : Nat) (p : Product)
    (l1 l2 : List CartItem) (cS : CartItem)
    (hckt : processCheckout true sys now u = (sys', evs, .ok r))
    (hitems : (getUserCart sys.products sys.store now u).items = l1 ++ cS :: l2)
    (hS : cS.sku = S) (hQ : cS.quantity = Q)
    (hl1 : ∀ i ∈ l1, i.sku ≠ S) (hl2 : ∀ i ∈ l2, i.sku ≠ S)
    (hp : getProductBySku sys.products S = .ok p)
    (hnodup : (sys.store.resv.map (fun x => (x.userId, x.sku))).Nodup) :
    sys'.orders = sys.orders ++
      [⟨u, (getUserCart sys.products sys.store now u).items.map
          (fun i => OrderItem.mk i.sku i.quantity i.price),
        (getUserCart sys.products sys.store now u).totalAmount, "completed"⟩]
    ∧ stockOf sys'.products S = p.totalStock - Q
    ∧ getReservedQuantity false sys'.store now u S = .ok 0
    ∧ evs = Ev.orderSaved ::
        ((getUserCart sys.products sys.store now u).items.map
            (fun i => Ev.stockReduced i.sku)
          ++ (getUserCart sys.products sys.store now u).items.map
            (fun i => Ev.released i.sku)) := by
  subst hS
  subst hQ
  obtain ⟨verrs, ps', evs1, st', evs2, hv, hrl, hre, hsys, hevs, hr⟩ :=
    processCheckout_ok_elim hckt
  have hmem : cS ∈ (getUserCart sys.products sys.store now u).items := by
    rw [hitems]
    exact List.mem_append_right _ (List.mem_cons_self cS l2)
  obtain ⟨e, heMem, heU, heLive, heSku, heQty⟩ := cart_item_source hmem
  have hfind : resvFind sys.store u cS.sku = some e := by
    have hk := find?_key_of_mem_nodup sys.store.resv e heMem hnodup
    unfold resvFind
    rw [← heU, ← heSku]
    exact hk
  have hOrders : sys'.orders = sys.orders ++ [⟨u,
      (getUserCart sys.products sys.store now u).items.map
        (fun i => OrderItem.mk i.sku i.quantity i.price),
      (getUserCart sys.products sys.store now u).totalAmount, "completed"⟩] := by
    rw [hsys]
  rw [hitems] at hrl hre
  have hEv1 : evs1 = (l1 ++ cS :: l2).map (fun i => Ev.stockReduced i.sku) :=
    reduceLoop_ok_events (l1 ++ cS :: l2) sys.products ps' evs1 hrl
  have hEv2 : evs2 = (l1 ++ cS :: l2).map (fun i => Ev.released i.sku) :=
    releaseLoop_ok_events (l1 ++ cS :: l2) sys.store st' evs2 hre
  obtain ⟨psA, evsA, evsB, hA, hB, hEvAB⟩ := reduceLoop_ok_split l1 sys.products ps' evs1 hrl
  rw [reduceLoop_cons] at hB
  cases hr2 : reduceStock psA cS.sku cS.quantity with
  | error m =>
    rw [hr2] at hB
    dsimp only at hB
    simp only [Prod.mk.injEq] at hB
    cases hB.2.2
  | ok psB =>
    rw [hr2] at hB
    dsimp only at hB
    rcases hC : reduceLoop psB l2 with ⟨psC, evsC, rC⟩
    rw [hC] at hB
    simp only [Prod.mk.injEq] at hB
    obtain ⟨hB1, hB2, hB3⟩ := hB
    have hstockA : stockOf psA cS.sku = p.totalStock := by
      have h1 := reduceLoop_stockOf_ne l1 sys.products hl1
      rw [hA] at h1
      dsimp only at h1
      rw [h1]
      unfold stockOf
      rw [hp]
    obtain ⟨pA, hpA, hpAlt, hpsB⟩ := reduceStock_ok hr2
    have hpAstock : pA.totalStock = p.totalStock := by
      have hx : stockOf psA cS.sku = pA.totalStock := by
        unfold stockOf
        rw [hpA]
      exact hx.symm.trans hstockA
    have hstockB : stockOf psB cS.sku = p.totalStock - cS.quantity := by
      subst hpsB
      unfold stockOf
      rw [getProductBySku_updateProduct_self hpA]
      dsimp only
      rw [hpAstock]
    have hstockF : stockOf ps' cS.sku = p.totalStock - cS.quantity := by
      have h2 := reduceLoop_stockOf_ne l2 psB hl2
      rw [hC] at h2
      dsimp only at h2
      rw [← hB1, h2, hstockB]
    obtain ⟨stA, evsA', evsB', hA', hB', hEvAB'⟩ :=
      releaseLoop_ok_split l1 sys.store st' evs2 hre
    have hfindA : resvFind stA u cS.sku = some e := by
      have h3 := @releaseLoop_resvFind_ne u now cS.sku l1 sys.store hl1
      rw [hA'] at h3
      dsimp only at h3
      exact h3.trans hfind
    have hrelS := release_core hfindA heLive heQty.symm.le
    rw [if_neg (by omega)] at hrelS
    rw [releaseLoop_cons] at hB'
    rw [hrelS] at hB'
    dsimp only at hB'
    rcases hC' : releaseLoop u now (aggIncrBy (resvDel stA u cS.sku) now cS.sku
        (-(cS.quantity : Int))) l2 with ⟨stC, evsC', rC'⟩
    rw [hC'] at hB'
    simp only [Prod.mk.injEq] at hB'
    obtain ⟨hB1', hB2', hB3'⟩ := hB'
    have hfindDel : resvFind (aggIncrBy (resvDel stA u cS.sku) now cS.sku
        (-(cS.quantity : Int))) u cS.sku = none := by
      rw [resvFind_aggIncrBy, resvFind_del_self]
    have hfindF : resvFind st' u cS.sku = none := by
      have h4 := @releaseLoop_resvFind_ne u now cS.sku l2
        (aggIncrBy (resvDel stA u cS.sku) now cS.sku (-(cS.quantity : Int))) hl2
      rw [hC'] at h4
      dsimp only at h4
      rw [← hB1', h4, hfindDel]
    have hResZero : getReservedQuantity false st' now u cS.sku = .ok 0 := by
      unfold getReservedQuantity resvGet
      rw [hfindF]
      simp
    refine ⟨hOrders, ?_, ?_, ?_⟩
    · rw [hsys]
      exact hstockF
    · rw [hsys]
      exact hResZero
    · rw [hevs, hitems, hEv1, hEv2]

/-- Witness for C4 at a concrete one-item checkout of quantity 2 on a
200-unit product. -/
theorem c4_checkout_success_witness :
    (⟨[⟨"FLASH-001", "Flash", 10, 198, true⟩],
        [⟨"alice", [⟨"FLASH-001", 2, 10⟩], 20, "completed"⟩],
        ⟨[], [⟨"FLASH-001", 0, some 100⟩]⟩⟩ : Sys).orders =
      ([] : List Order) ++ [⟨"alice", [⟨"FLASH-001", 2, 10⟩], 20, "completed"⟩]
    ∧ stockOf (⟨[⟨"FLASH-001", "Flash", 10, 198, true⟩],
        [⟨"alice", [⟨"FLASH-001", 2, 10⟩], 20, "completed"⟩],
        ⟨[], [⟨"FLASH-001", 0, some 100⟩]⟩⟩ : Sys).products "FLASH-001" = 200 - 2
    ∧ getReservedQuantity false (⟨[⟨"FLASH-001", "Flash", 10, 198, true⟩],
        [⟨"alice", [⟨"FLASH-001", 2, 10⟩], 20, "completed"⟩],
        ⟨[], [⟨"FLASH-001", 0, some 100⟩]⟩⟩ : Sys).store 0 "alice" "FLASH-001" = .ok 0
    ∧ [Ev.orderSaved, Ev.stockReduced "FLASH-001", Ev.released "FLASH-001"] =
        Ev.orderSaved ::
          ((getUserCart [⟨"FLASH-001", "Flash", 10, 200, true⟩]
              ⟨[⟨"alice", "FLASH-001", 2, 100⟩], [⟨"FLASH-001", 2, some 100⟩]⟩
              0 "alice").items.map (fun i => Ev.stockReduced i.sku)
            ++ (getUserCart [⟨"FLASH-001", "Flash", 10, 200, true⟩]
              ⟨[⟨"alice", "FLASH-001", 2, 100⟩], [⟨"FLASH-001", 2, some 100⟩]⟩
              0 "alice").items.map (fun i => Ev.released i.sku)) := by
  have h := c4_checkout_success_postconditions
    ⟨[⟨"FLASH-001", "Flash", 10, 200, true⟩], [],
      ⟨[⟨"alice", "FLASH-001", 2, 100⟩], [⟨"FLASH-001", 2, some 100⟩]⟩⟩
    ⟨[⟨"FLASH-001", "Flash", 10, 198, true⟩],
      [⟨"alice", [⟨"FLASH-001", 2, 10⟩], 20, "completed"⟩],
      ⟨[], [⟨"FLASH-001", 0, some 100⟩]⟩⟩
    0 "alice" [Ev.orderSaved, Ev.stockReduced "FLASH-001", Ev.released "FLASH-001"]
    ⟨"alice", [⟨"FLASH-001", 2, 10⟩], 20⟩ "FLASH-001" 2
    ⟨"FLASH-001", "Flash", 10, 200, true⟩ [] []
    ⟨"FLASH-001", "Flash", 10, 2, 20⟩
    rfl rfl rfl rfl (by intro i hi; cases hi) (by intro i hi; cases hi) rfl (by decide)
  have hcart : (getUserCart [⟨"FLASH-001", "Flash", 10, 200, true⟩]
      ⟨[⟨"alice", "FLASH-001", 2, 100⟩], [⟨"FLASH-001", 2, some 100⟩]⟩
      0 "alice").items.map (fun i => OrderItem.mk i.sku i.quantity i.price) =
      [⟨"FLASH-001", 2, 10⟩] := rfl
  exact ⟨by rw [h.1]; rfl, h.2.1, h.2.2.1, h.2.2.2⟩

/-- Claim C5: checkout validation checks, for every cart item, both the
reserved quantity against the cart quantity and current stock availability,
collects every violation (not only the first), fails with the aggregated
validation error, and performs no mutation on failure: the system state is
returned unchanged, no order is written, no stock is decremented, and no
reservation is released (the event trace is empty). -/
theorem c5_checkout_validation_all_or_nothing (sys : Sys) (now : Nat) (u : String)
    (verrs : List Violation)
    (hne : (getUserCart sys.products sys.store now u).items.isEmpty = false)
    (hv : validateLoop sys.products sys.store now u
      (getUserCart sys.products sys.store now u).items = .ok verrs)
    (hverrs : verrs.isEmpty = false) :
    processCheckout true sys now u = (sys, [], .error (.validationFailed verrs))
    ∧ (∀ i ∈ (getUserCart sys.products sys.store now u).items,
        exceptD (getReservedQuantity false sys.store now u i.sku) 0 < i.quantity →
        Violation.qtyMismatch i.sku
          (exceptD (getReservedQuantity false sys.store now u i.sku) 0) i.quantity ∈ verrs)
    ∧ (∀ i ∈ (getUserCart sys.products sys.store now u).items, ∀ chk,
        checkStockAvailability sys.products sys.store now i.sku i.quantity = .ok chk →
        chk.isAvailable = false →
        Violation.insufficient i.sku chk.availableStock i.quantity ∈ verrs) := by
  refine ⟨?_, validateLoop_mem_qtyMismatch sys.products sys.store now u _ verrs hv,
    validateLoop_mem_insufficient sys.products sys.store now u _ verrs hv⟩
  unfold processCheckout
  rw [if_neg (by simp)]
  dsimp only
  rw [hne]
  simp only [Bool.false_eq_true, if_false]
  rw [hv]
  dsimp only
  rw [if_pos hverrs]

/-- Witness for C5: a concrete cart whose single item fails the
availability re-check (stock 1, reserved 2). -/
theorem c5_checkout_validation_witness :
    processCheckout true ⟨[⟨"X", "x", 3, 1, true⟩], [],
        ⟨[⟨"alice", "X", 2, 100⟩], [⟨"X", 2, some 100⟩]⟩⟩ 0 "alice" =
      (⟨[⟨"X", "x", 3, 1, true⟩], [], ⟨[⟨"alice", "X", 2, 100⟩], [⟨"X", 2, some 100⟩]⟩⟩,
        [], .error (.validationFailed [.insufficient "X" 0 2]))
    ∧ Violation.insufficient "X" 0 2 ∈ [Violation.insufficient "X" 0 2] := by
  have h := c5_checkout_validation_all_or_nothing
    ⟨[⟨"X", "x", 3, 1, true⟩], [], ⟨[⟨"alice", "X", 2, 100⟩], [⟨"X", 2, some 100⟩]⟩⟩
    0 "alice" [.insufficient "X" 0 2] rfl rfl rfl
  exact ⟨h.1, h.2.2 ⟨"X", "x", 3, 2, 6⟩ (by decide) ⟨false, 0, 1, 2⟩ rfl rfl⟩

/-- Claim C10: getUserCart silently omits every reservation whose SKU has no
active product, so a user whose only live holds are on such SKUs gets an
empty cart (items, totalItems, totalAmount all empty/zero), checkout fails
with the empty-cart error without mutating anything, and the aggregate
reserved counters still report those holds. -/
theorem c10_cart_omits_dead_products (sys : Sys) (now : Nat) (u : String)
    (hdead : ∀ e ∈ sys.store.resv, e.userId = u → e.live now = true →
      getProductBySku sys.products e.sku = .error "Product not found") :
    getUserCart sys.products sys.store now u = ⟨u, [], 0, 0⟩
    ∧ processCheckout true sys now u = (sys, [], .error .emptyCart)
    ∧ ∀ s, getTotalReservedStock false (processCheckout true sys now u).1.store now s =
        getTotalReservedStock false sys.store now s := by
  have hcart := getUserCart_of_dead hdead
  have hchk : processCheckout true sys now u = (sys, [], .error .emptyCart) := by
    unfold processCheckout
    rw [if_neg (by simp)]
    dsimp only
    rw [hcart]
    rfl
  exact ⟨hcart, hchk, fun s => by rw [hchk]⟩

/-- Witness for C10: a live hold on a product that exists but is inactive. -/
theorem c10_cart_omits_dead_products_witness :
    getUserCart [⟨"X", "x", 10, 100, false⟩]
        ⟨[⟨"alice", "X", 2, 100⟩], [⟨"X", 2, some 100⟩]⟩ 0 "alice" = ⟨"alice", [], 0, 0⟩
    ∧ processCheckout true ⟨[⟨"X", "x", 10, 100, false⟩], [],
        ⟨[⟨"alice", "X", 2, 100⟩], [⟨"X", 2, some 100⟩]⟩⟩ 0 "alice" =
      (⟨[⟨"X", "x", 10, 100, false⟩], [], ⟨[⟨"alice", "X", 2, 100⟩], [⟨"X", 2, some 100⟩]⟩⟩,
        [], .error .emptyCart)
    ∧ getTotalReservedStock false
        (processCheckout true ⟨[⟨"X", "x", 10, 100, false⟩], [],
          ⟨[⟨"alice", "X", 2, 100⟩], [⟨"X", 2, some 100⟩]⟩⟩ 0 "alice").1.store 0 "X" =
        getTotalReservedStock false ⟨[⟨"alice", "X", 2, 100⟩], [⟨"X", 2, some 100⟩]⟩ 0 "X" := by
  have h := c10_cart_omits_dead_products
    ⟨[⟨"X", "x", 10, 100, false⟩], [], ⟨[⟨"alice", "X", 2, 100⟩], [⟨"X", 2, some 100⟩]⟩⟩
    0 "alice" (by
      intro e he h1 h2
      rw [List.mem_singleton] at he
      subst he
      rfl)
  exact ⟨h.1, h.2.1, h.2.2 "X"⟩

/-- Claim C6 (counterexample): releasing quantity 1 for a (user, sku) with no
live hold at all returns false as a normal result, with no error raised and
no OverRelease failure, contradicting the claim that every release of more
than the held amount, including the no-hold case, fails with OverRelease. -/
theorem c6_release_absent_hold_is_silent :
    releaseReservation false ⟨[], []⟩ 0 0 "alice" "SKU-1" 1 = (⟨[], []⟩, .ok false) := rfl

/-- Claim C6 (amended): when a live hold exists and the released quantity
exceeds it, releaseReservation fails with the over-release error and mutates
nothing (the amount is never silently clamped); when no live hold exists it
returns false without raising an error. -/
theorem c6_release_over_held (st : Store) (t1 t2 : Nat) (u s : String) (q : Nat) :
    (∀ h, resvGet st t1 u s = some h → h < q →
      releaseReservation false st t1 t2 u s q =
        (st, .error "Cannot release more than reserved"))
    ∧ (resvGet st t1 u s = none →
      releaseReservation false st t1 t2 u s q = (st, .ok false)) := by
  constructor
  · intro h hget hlt
    simp only [releaseReservation, Bool.false_eq_true, if_false, hget]
    rw [if_pos hlt]
  · intro hget
    simp only [releaseReservation, Bool.false_eq_true, if_false, hget]

/-- Witness for C6's amended theorem at a concrete over-release. -/
theorem c6_release_over_held_witness :
    releaseReservation false ⟨[⟨"alice", "SKU-1", 2, 100⟩], []⟩ 0 0 "alice" "SKU-1" 5 =
      (⟨[⟨"alice", "SKU-1", 2, 100⟩], []⟩, .error "Cannot release more than reserved") :=
  (c6_release_over_held ⟨[⟨"alice", "SKU-1", 2, 100⟩], []⟩ 0 0 "alice" "SKU-1" 5).1 2
    rfl (by decide)

/-- Claim C7: cancel with quantity omitted cancels and returns the entire
held quantity; with an explicit quantity it cancels and returns
min(quantity, held); the per-SKU aggregate counter is decremented by exactly
the cancelled amount and the per-user reservation is reduced (or deleted
when nothing remains); cancelling an absent or expired hold returns 0, is
not an error, and mutates nothing. -/
theorem c7_cancel_semantics (st : Store) (now : Nat) (u s : String) :
    (∀ h, resvGet st now u s = some h →
      (cancelReservation false st now now u s none).2 = .ok h
      ∧ getReservedQuantity false (cancelReservation false st now now u s none).1 now u s =
          .ok 0
      ∧ getTotalReservedStock false (cancelReservation false st now now u s none).1 now s =
          .ok (exceptD (getTotalReservedStock false st now s) 0 - (h : Int)))
    ∧ (∀ h q, resvGet st now u s = some h →
      (cancelReservation false st now now u s (some q)).2 = .ok (min q h)
      ∧ getReservedQuantity false (cancelReservation false st now now u s (some q)).1 now u s =
          .ok (h - min q h)
      ∧ getTotalReservedStock false (cancelReservation false st now now u s (some q)).1 now s =
          .ok (exceptD (getTotalReservedStock false st now s) 0 - ((min q h : Nat) : Int)))
    ∧ (∀ oq, resvGet st now u s = none →
      cancelReservation false st now now u s oq = (st, .ok 0)) := by
  refine ⟨?_, ?_, ?_⟩
  · intro h hget
    obtain ⟨e, hf, hlive, hq⟩ := resvGet_some_elim hget
    subst hq
    have hcore := @cancel_core st now u s e none e.qty hf hlive rfl
    rw [if_neg (by omega)] at hcore
    refine ⟨by rw [hcore], ?_, ?_⟩
    · rw [hcore]
      dsimp only
      simp only [getReservedQuantity, Bool.false_eq_true, if_false, resvGet_aggIncrBy,
        resvGet_del_self, Option.getD_none]
    · rw [hcore]
      dsimp only
      rw [getTotal_aggIncrBy, getTotal_resvDel, Int.sub_eq_add_neg]
  · intro h q hget
    obtain ⟨e, hf, hlive, hq⟩ := resvGet_some_elim hget
    subst hq
    have hcore := @cancel_core st now u s e (some q) (min q e.qty) hf hlive rfl
    by_cases hr : 0 < e.qty - min q e.qty
    · rw [if_pos hr] at hcore
      have hlt := live_lt hlive
      refine ⟨by rw [hcore], ?_, ?_⟩
      · rw [hcore]
        dsimp only
        simp only [getReservedQuantity, Bool.false_eq_true, if_false, resvGet_aggIncrBy]
        rw [resvGet_setEx_self_live (by omega)]
        rfl
      · rw [hcore]
        dsimp only
        rw [getTotal_aggIncrBy, getTotal_resvSetEx, Int.sub_eq_add_neg]
    · rw [if_neg hr] at hcore
      have hz : e.qty - min q e.qty = 0 := by omega
      refine ⟨by rw [hcore], ?_, ?_⟩
      · rw [hcore]
        dsimp only
        simp only [getReservedQuantity, Bool.false_eq_true, if_false, resvGet_aggIncrBy,
          resvGet_del_self, Option.getD_none, hz]
      · rw [hcore]
        dsimp only
        rw [getTotal_aggIncrBy, getTotal_resvDel, Int.sub_eq_add_neg]
  · intro oq hget
    simp only [cancelReservation, Bool.false_eq_true, if_false, hget]

/-- Witness for C7 at a concrete partial explicit-quantity cancel. -/
theorem c7_cancel_semantics_witness :
    (cancelReservation false ⟨[⟨"alice", "SKU-1", 5, 100⟩], [⟨"SKU-1", 5, some 100⟩]⟩
        0 0 "alice" "SKU-1" (some 2)).2 = .ok (min 2 5)
    ∧ getReservedQuantity false
        (cancelReservation false ⟨[⟨"alice", "SKU-1", 5, 100⟩], [⟨"SKU-1", 5, some 100⟩]⟩
          0 0 "alice" "SKU-1" (some 2)).1 0 "alice" "SKU-1" = .ok (5 - min 2 5)
    ∧ getTotalReservedStock false
        (cancelReservation false ⟨[⟨"alice", "SKU-1", 5, 100⟩], [⟨"SKU-1", 5, some 100⟩]⟩
          0 0 "alice" "SKU-1" (some 2)).1 0 "SKU-1" =
        .ok (exceptD (getTotalReservedStock false
          ⟨[⟨"alice", "SKU-1", 5, 100⟩], [⟨"SKU-1", 5, some 100⟩]⟩ 0 "SKU-1") 0 -
          ((min 2 5 : Nat) : Int)) :=
  (c7_cancel_semantics ⟨[⟨"alice", "SKU-1", 5, 100⟩], [⟨"SKU-1", 5, some 100⟩]⟩
    0 "alice" "SKU-1").2.1 5 2 rfl

/-- Claim C8 (counterexample): with the backend client failing, the three
read operations return default values (0, 0, the empty list) as ordinary
successes instead of surfacing the failure as an error, contradicting the
claim that every Reservation Store operation propagates backend errors. -/
theorem c8_reads_swallow_backend_errors :
    getReservedQuantity true ⟨[], []⟩ 0 "alice" "SKU-1" = .ok 0
    ∧ getTotalReservedStock true ⟨[], []⟩ 0 "SKU-1" = .ok 0
    ∧ getUserReservations true ⟨[], []⟩ 0 "alice" = .ok [] :=
  ⟨rfl, rfl, rfl⟩

/-- Claim C8 (amended): the mutating operations reserveStock,
cancelReservation, and releaseReservation propagate a backend error
immediately without retry and without mutation, while the read operations
getReservedQuantity, getTotalReservedStock, and getUserReservations swallow
a backend error and return 0, 0, and the empty list respectively. -/
theorem c8_error_propagation_split (st : Store) (t1 t2 now : Nat) (u s : String)
    (q ttl : Nat) (oq : Option Nat) :
    reserveStock true st t1 t2 u s q ttl = (st, .error "redis error")
    ∧ cancelReservation true st t1 t2 u s oq = (st, .error "redis error")
    ∧ releaseReservation true st t1 t2 u s q = (st, .error "redis error")
    ∧ getReservedQuantity true st now u s = .ok 0
    ∧ getTotalReservedStock true st now s = .ok 0
    ∧ getUserReservations true st now u = .ok [] :=
  ⟨rfl, rfl, rfl, rfl, rfl, rfl⟩

/-- Claim C9: when cancel or release leaves a positive remainder and the
reservation key's TTL lookup at the write round trip is no longer positive
(the stored expiry lapsed between the initial GET and the TTL read), the
remainder is re-stored with a fresh hard-coded 600-second TTL, so the hold
now expires at tExec + 600, strictly later than its original expiry. -/
theorem c9_lapsed_ttl_restores_600 (st : Store) (t1 t2 : Nat) (u s : String)
    (e : ResvEntry) (q : Nat)
    (hf : resvFind st u s = some e) (h1 : t1 < e.expiresAt) (h2 : e.expiresAt ≤ t2)
    (hlt : q < e.qty) :
    resvTtl st t2 u s = -2
    ∧ resvFind (cancelReservation false st t1 t2 u s (some q)).1 u s =
        some ⟨u, s, e.qty - q, t2 + 600⟩
    ∧ resvFind (releaseReservation false st t1 t2 u s q).1 u s =
        some ⟨u, s, e.qty - q, t2 + 600⟩
    ∧ e.expiresAt < t2 + 600 := by
  have hlive1 : e.live t1 = true := by
    simp only [ResvEntry.live, decide_eq_true_eq]
    exact h1
  have hdead2 : ¬(e.live t2 = true) := by
    simp only [ResvEntry.live, decide_eq_true_eq]
    omega
  have hget1 : resvGet st t1 u s = some e.qty := by
    unfold resvGet
    rw [hf]
    dsimp only
    rw [if_pos hlive1]
  have httl2 : resvTtl st t2 u s = -2 := by
    unfold resvTtl
    rw [hf]
    dsimp only
    rw [if_neg hdead2]
  have hmin : min q e.qty = q := min_eq_left (le_of_lt hlt)
  refine ⟨httl2, ?_, ?_, by omega⟩
  · simp only [cancelReservation, Bool.false_eq_true, if_false, hget1, hmin]
    rw [if_pos (by omega), httl2, if_neg (by omega)]
    rw [resvFind_aggIncrBy, resvFind_setEx_self]
  · simp only [releaseReservation, Bool.false_eq_true, if_false, hget1]
    rw [if_neg (by omega), if_pos (by omega), httl2, if_neg (by omega)]
    rw [resvFind_aggIncrBy, resvFind_setEx_self]

/-- Claim C3: when the second item of a two-item reserveItems batch fails
with InsufficientStock after the first item was committed, the call returns
(for every behaviour of the compensating cancels, including a failing one
that is logged and swallowed) the original InsufficientStock error, and
under successful compensation a user with no prior hold on the first sku
ends with reserved quantity 0 for it. -/
theorem c3_batch_rollback_on_later_failure (ps : List Product) (st : Store)
    (now ttl : Nat) (u sku1 sku2 : String) (q1 q2 : Nat) (chk1 chk2 : StockCheck)
    (hs1 : sku1 ≠ "") (hq1 : 0 < q1) (httl : 0 < ttl)
    (hs2 : sku2 ≠ "") (hq2 : 0 < q2)
    (hprior : resvGet st now u sku1 = none)
    (hc1 : checkStockAvailability ps st now sku1 q1 = .ok chk1)
    (hav1 : chk1.isAvailable = true)
    (hc2 : checkStockAvailability ps (reserveStock false st now now u sku1 q1 ttl).1
      now sku2 q2 = .ok chk2)
    (hav2 : chk2.isAvailable = false) :
    (∀ cf : String → Bool,
      (reserveItems cf ps true st now u [⟨sku1, q1⟩, ⟨sku2, q2⟩] ttl).2 =
        .error (.insufficientStock sku2 chk2.availableStock q2))
    ∧ getReservedQuantity false
        (reserveItems (fun _ => false) ps true st now u [⟨sku1, q1⟩, ⟨sku2, q2⟩] ttl).1
        now u sku1 = .ok 0 := by
  have hcond1 : ((⟨sku1, q1⟩ : Item).sku == "" || (⟨sku1, q1⟩ : Item).quantity == 0) = false := by
    simp only [Bool.or_eq_false_iff, beq_eq_false_iff_ne, ne_eq]
    exact ⟨hs1, by omega⟩
  have hcond2 : ((⟨sku2, q2⟩ : Item).sku == "" || (⟨sku2, q2⟩ : Item).quantity == 0) = false := by
    simp only [Bool.or_eq_false_iff, beq_eq_false_iff_ne, ne_eq]
    exact ⟨hs2, by omega⟩
  have step : ∀ cf : String → Bool,
      reserveItems cf ps true st now u [⟨sku1, q1⟩, ⟨sku2, q2⟩] ttl =
        (rollbackLoop cf u now [⟨sku1, q1⟩]
          (reserveStock false st now now u sku1 q1 ttl).1,
         .error (.insufficientStock sku2 chk2.availableStock q2)) := by
    intro cf
    unfold reserveItems
    rw [if_neg (by simp)]
    simp only [reserveItemsGo]
    rw [hcond1]
    simp only [Bool.false_eq_true, if_false]
    rw [hc1]
    dsimp only
    rw [if_neg (by rw [hav1]; simp)]
    rw [hcond2]
    simp only [Bool.false_eq_true, if_false]
    rw [hc2]
    dsimp only
    rw [if_pos hav2]
    rfl
  have hfind1 : resvFind (reserveStock false st now now u sku1 q1 ttl).1 u sku1 =
      some ⟨u, sku1, q1, now + ttl⟩ := by
    simp only [reserveStock, Bool.false_eq_true, if_false]
    rw [hprior]
    simp only [Option.getD_none, Nat.zero_add]
    rw [resvFind_aggExpire, resvFind_aggIncrBy, resvFind_setEx_self]
  have hlive1 : (⟨u, sku1, q1, now + ttl⟩ : ResvEntry).live now = true := by
    simp only [ResvEntry.live, decide_eq_true_eq]
    omega
  have hcore := @cancel_core (reserveStock false st now now u sku1 q1 ttl).1 now u sku1
    ⟨u, sku1, q1, now + ttl⟩ (some q1) q1 hfind1 hlive1 (by simp)
  rw [if_neg (by simp)] at hcore
  constructor
  · intro cf
    rw [step cf]
  · rw [step (fun _ => false)]
    simp only [rollbackLoop]
    rw [hcore]
    simp only [getReservedQuantity, Bool.false_eq_true, if_false, resvGet_aggIncrBy,
      resvGet_del_self, Option.getD_none]

/-- Witness for C3 at a concrete two-item batch (first sku has ample stock,
second is short), once with a failing compensating cancel and once with a
successful one. -/
theorem c3_batch_rollback_witness :
    (reserveItems (fun _ => true) [⟨"A", "a", 10, 100, true⟩, ⟨"B", "b", 5, 3, true⟩]
        true ⟨[], []⟩ 0 "alice" [⟨"A", 2⟩, ⟨"B", 5⟩] 600).2 =
      .error (.insufficientStock "B" 3 5)
    ∧ getReservedQuantity false
        (reserveItems (fun _ => false) [⟨"A", "a", 10, 100, true⟩, ⟨"B", "b", 5, 3, true⟩]
          true ⟨[], []⟩ 0 "alice" [⟨"A", 2⟩, ⟨"B", 5⟩] 600).1 0 "alice" "A" = .ok 0 := by
  have h := c3_batch_rollback_on_later_failure
    [⟨"A", "a", 10, 100, true⟩, ⟨"B", "b", 5, 3, true⟩] ⟨[], []⟩ 0 600 "alice" "A" "B" 2 5
    ⟨true, 100, 100, 0⟩ ⟨false, 3, 3, 0⟩ (by decide) (by decide) (by decide) (by decide)
    (by decide) rfl rfl rfl rfl rfl
  exact ⟨h.1 (fun _ => true), h.2⟩

/-- Witness for C9 at a concrete lapsed-TTL partial cancel/release. -/
theorem c9_lapsed_ttl_restores_600_witness :
    resvTtl ⟨[⟨"alice", "SKU-1", 5, 10⟩], []⟩ 10 "alice" "SKU-1" = -2
    ∧ resvFind (cancelReservation false ⟨[⟨"alice", "SKU-1", 5, 10⟩], []⟩
        0 10 "alice" "SKU-1" (some 2)).1 "alice" "SKU-1" =
        some ⟨"alice", "SKU-1", 5 - 2, 10 + 600⟩
    ∧ resvFind (releaseReservation false ⟨[⟨"alice", "SKU-1", 5, 10⟩], []⟩
        0 10 "alice" "SKU-1" 2).1 "alice" "SKU-1" =
        some ⟨"alice", "SKU-1", 5 - 2, 10 + 600⟩
    ∧ (10 : Nat) < 10 + 600 :=
  c9_lapsed_ttl_restores_600 ⟨[⟨"alice", "SKU-1", 5, 10⟩], []⟩ 0 10 "alice" "SKU-1"
    ⟨"alice", "SKU-1", 5, 10⟩ 2 rfl (by decide) (by decide) (by decide)


/-- Claim C1: the claim says reserve re-checks
`totalStock - aggregateReserved >= quantity` atomically with its increment
of the per-SKU aggregate counter, so that no interleaving of reserve calls
can push `aggregateReserved(sku)` above `totalStock(sku)`.  The code does
not: the availability check is a separate earlier read and `reserveStock`
increments unconditionally.  In the interleaving where both availability
checks of two concurrent 150-unit reserves read the initial state of a
200-unit product before either write, both writes commit and the aggregate
reserved counter reaches 300 > 200. -/
theorem c1_interleaved_reserves_oversell :
    (checkStockAvailability [⟨"FLASH-001", "Flash", 10, 200, true⟩] ⟨[], []⟩
        0 "FLASH-001" 150).map (fun c => c.isAvailable) = .ok true
    ∧ (checkStockAvailability [⟨"FLASH-001", "Flash", 10, 200, true⟩]
        (reserveStock false ⟨[], []⟩ 0 0 "alice" "FLASH-001" 150 600).1
        0 "FLASH-001" 150).map (fun c => c.isAvailable) = .ok false
    ∧ (reserveStock false (reserveStock false ⟨[], []⟩ 0 0 "alice" "FLASH-001" 150 600).1
        0 0 "bob" "FLASH-001" 150 600).2 = .ok true
    ∧ getTotalReservedStock false
        (reserveStock false (reserveStock false ⟨[], []⟩ 0 0 "alice" "FLASH-001" 150 600).1
          0 0 "bob" "FLASH-001" 150 600).1 0 "FLASH-001" = .ok 300
    ∧ stockOf [⟨"FLASH-001", "Flash", 10, 200, true⟩] "FLASH-001" = 200
    ∧ (200 : Int) < 300 := by
  exact ⟨rfl, rfl, rfl, rfl, rfl, by decide⟩

/-- Claim C2: the claim says the per-SKU aggregate reserved counter equals
the sum of the quantities of the non-expired per-(user, sku) reservations
at every observable instant, and that a reservation created with ttl t
leaves the aggregate no later than t plus one tick.  The code stores the
aggregate in a single key whose expiry is reset to the latest reserve's
TTL: after alice reserves 5 (ttl 10, at t=0) and bob reserves 3 (ttl 10,
at t=5), at t=12 alice's reservation has expired (her readable quantity is
0, the live sum is 3) yet the aggregate counter still reports 8. -/
theorem c2_aggregate_drifts_from_live_sum :
    sumLiveResv ((reserveStock false (reserveStock false ⟨[], []⟩ 0 0 "alice" "SKU-1" 5 10).1
        5 5 "bob" "SKU-1" 3 10).1) 12 "SKU-1" = 3
    ∧ getTotalReservedStock false
        ((reserveStock false (reserveStock false ⟨[], []⟩ 0 0 "alice" "SKU-1" 5 10).1
          5 5 "bob" "SKU-1" 3 10).1) 12 "SKU-1" = .ok 8
    ∧ getReservedQuantity false
        ((reserveStock false (reserveStock false ⟨[], []⟩ 0 0 "alice" "SKU-1" 5 10).1
          5 5 "bob" "SKU-1" 3 10).1) 12 "alice" "SKU-1" = .ok 0
    ∧ ((8 : Int) = 3 → False) := by
  exact ⟨rfl, rfl, rfl, by decide⟩

end FlashDeal
